import Mathlib

set_option maxRecDepth 8192

/-!
Verification of the rs-ync reconciliation engine (src/src/lib.rs).

Modelling conventions:
* A filesystem path (`PathBuf`) is its list of components.
* A `HashMap` is an association list; `insert` overwrites the binding of an
  existing key, and iteration order is the list order (the real map iterates
  in an unspecified order, which is why determinism theorems quantify over
  permutations of the association list).
* The SHA-256 digest is kept abstract: every definition that hashes is
  parametrised by a digest function `h : String → String`, so each theorem
  holds for the real digest in particular.
* A Rust panic (`expect`) is modelled as the error outcome of `Except`
  (respectively `Option` in the planner), so "the expect never fires" becomes
  "the result is `some`".
-/

/-- A filesystem path, modelled as its list of components (Rust `PathBuf`). -/
abbrev FsPath := List String

/-- Rust `Path::display`: components joined by the separator. -/
def pathDisplay (p : FsPath) : String := String.intercalate "/" p

/-- Rust `Path::file_name`: the final component, if any. -/
def pathFileName (p : FsPath) : Option String := p.getLast?

/-- Rust `Path::parent`: the path with the final component dropped; `none` for an
empty (root) path. -/
def pathParent (p : FsPath) : Option FsPath :=
  match p with
  | [] => none
  | _ :: _ => some p.dropLast

/-- Rust `Path::starts_with`: component-wise prefix test. -/
def pathStartsWith (p base : FsPath) : Bool := base.isPrefixOf p

/-- The `std::io::ErrorKind` values the fake filesystem and `Blob::new` use. -/
inductive IoErrorKind where
  | notFound
  | invalidData
deriving DecidableEq, Repr

/-- Rust `std::io::Error`: an error kind together with its message. The kind
`invalidData` with a basename/parent message is what the specification calls
`PathMalformed`; `notFound` is its `NotFound`. -/
structure IoError where
  kind : IoErrorKind
  msg : String
deriving DecidableEq, Repr

/-- The error every fake-filesystem operation returns for a missing file. -/
def fileNotFound : IoError := IoError.mk IoErrorKind.notFound "File not found"

/-- Rust `HashMap::insert`: overwrite any existing binding of the key. -/
def insertKV {K V : Type} [BEq K] (k : K) (v : V) (m : List (K × V)) : List (K × V) :=
  m.filter (fun e => !(e.1 == k)) ++ [(k, v)]

/-- Rust `HashMap::remove` (the resulting map). -/
def eraseKV {K V : Type} [BEq K] (k : K) (m : List (K × V)) : List (K × V) :=
  m.filter (fun e => !(e.1 == k))

/-- The in-memory fake filesystem: a path-to-content map plus the log of
recorded operations. -/
structure FakeFileSystem where
  files : List (FsPath × String)
  operations : List String
deriving DecidableEq, Repr

/-- Rust `FakeFileSystem::new`. -/
def FakeFileSystem.new : FakeFileSystem := FakeFileSystem.mk [] []

/-- Rust `FakeFileSystem::list_files`: log the listing, then return every key of
`files` that starts with the base path. -/
def FakeFileSystem.listFiles (fs : FakeFileSystem) (path : FsPath) :
    FakeFileSystem × List FsPath :=
  (FakeFileSystem.mk fs.files
      (fs.operations ++ ["list: `" ++ pathDisplay path ++ "`"]),
   (fs.files.map Prod.fst).filter (fun p => pathStartsWith p path))

/-- Rust `FakeFileSystem::move_file`: remove the source binding, bind its content
to the target path, and log; `NotFound` if the source is absent. -/
def FakeFileSystem.moveFile (fs : FakeFileSystem) (src dst : FsPath) :
    FakeFileSystem × Except IoError Unit :=
  match fs.files.lookup src with
  | some content =>
      (FakeFileSystem.mk (insertKV dst content (eraseKV src fs.files))
         (fs.operations ++
           ["move: `" ++ pathDisplay src ++ "` -> `" ++ pathDisplay dst ++ "`"]),
       Except.ok ())
  | none => (fs, Except.error fileNotFound)

/-- Rust `FakeFileSystem::copy_file`: bind a clone of the source content to the
target path and log; `NotFound` if the source is absent. -/
def FakeFileSystem.copyFile (fs : FakeFileSystem) (src dst : FsPath) :
    FakeFileSystem × Except IoError Unit :=
  match fs.files.lookup src with
  | some content =>
      (FakeFileSystem.mk (insertKV dst content fs.files)
         (fs.operations ++
           ["copy: `" ++ pathDisplay src ++ "` -> `" ++ pathDisplay dst ++ "`"]),
       Except.ok ())
  | none => (fs, Except.error fileNotFound)

/-- Rust `FakeFileSystem::delete_file`: remove the binding and log; `NotFound` if
the path is absent. -/
def FakeFileSystem.deleteFile (fs : FakeFileSystem) (path : FsPath) :
    FakeFileSystem × Except IoError Unit :=
  match fs.files.lookup path with
  | some _ =>
      (FakeFileSystem.mk (eraseKV path fs.files)
         (fs.operations ++ ["delete: `" ++ pathDisplay path ++ "`"]),
       Except.ok ())
  | none => (fs, Except.error fileNotFound)

/-- Rust `FakeFileSystem::hash_file`: digest of the stored content, `NotFound` for
an absent path. The digest function `h` is the abstract SHA-256. -/
def FakeFileSystem.hashFile (h : String → String) (fs : FakeFileSystem)
    (path : FsPath) : Except IoError String :=
  match fs.files.lookup path with
  | some content => Except.ok (h content)
  | none => Except.error fileNotFound

/-- Rust `FakeFileSystem::size`: byte length of the stored content, `NotFound` for
an absent path. -/
def FakeFileSystem.sizeFile (fs : FakeFileSystem) (path : FsPath) :
    Except IoError Nat :=
  match fs.files.lookup path with
  | some content => Except.ok content.utf8ByteSize
  | none => Except.error fileNotFound

/-- Rust `Blob`: one file and its observed identity. -/
structure Blob where
  path : FsPath
  basename : String
  dir : FsPath
  hash : String
  id : String
  size : Nat
deriving DecidableEq, Repr

/-- Rust `Blob::new`: derive basename and parent (failing with the invalid-data
errors the source raises), hash and stat the file through the capability, and
assemble the fingerprint `basename ++ "-" ++ hash ++ "-" ++ size`. -/
def Blob.new (h : String → String) (path : FsPath) (fs : FakeFileSystem) :
    Except IoError Blob :=
  match pathFileName path with
  | none => Except.error (IoError.mk IoErrorKind.invalidData "basename operation failed")
  | some basename =>
    match pathParent path with
    | none => Except.error (IoError.mk IoErrorKind.invalidData "parent operation failed")
    | some dir =>
      match FakeFileSystem.hashFile h fs path with
      | Except.error e => Except.error e
      | Except.ok hash =>
        match FakeFileSystem.sizeFile fs path with
        | Except.error e => Except.error e
        | Except.ok size =>
          Except.ok (Blob.mk path basename dir hash
            (basename ++ "-" ++ hash ++ "-" ++ toString size) size)

/-- Rust `paths_to_blobs`: a `Blob` per path, failing on the first failure. -/
def paths_to_blobs (h : String → String) (paths : List FsPath)
    (fs : FakeFileSystem) : Except IoError (List Blob) :=
  match paths with
  | [] => Except.ok []
  | p :: rest =>
    match Blob.new h p fs with
    | Except.error e => Except.error e
    | Except.ok b =>
      match paths_to_blobs h rest fs with
      | Except.error e => Except.error e
      | Except.ok bs => Except.ok (b :: bs)

/-- Rust `struct_to_hashmap`: fold the items into a map keyed by `key_fn`, later
items silently overwriting earlier ones. -/
def struct_to_hashmap {K T : Type} [BEq K] (items : List T) (key_fn : T → K) :
    List (K × T) :=
  items.foldl (fun m item => insertKV (key_fn item) item m) []

/-- A snapshot: the fingerprint-to-blob map of one directory. -/
abbrev SnapMap := List (String × Blob)

/-- Rust `get_struct_map`: list the root, build the blobs (the `expect` panic on a
failed blob is the error outcome), and key them by fingerprint. -/
def get_struct_map (h : String → String) (root_dir : FsPath)
    (fs : FakeFileSystem) : FakeFileSystem × Except IoError SnapMap :=
  let res := fs.listFiles root_dir
  match paths_to_blobs h res.2 res.1 with
  | Except.error e => (res.1, Except.error e)
  | Except.ok blobs => (res.1, Except.ok (struct_to_hashmap blobs (fun s => s.id)))

/-- Rust `FileOp`: one planned mutation. -/
inductive FileOp where
  | CopyFile (src_path dst_path : FsPath)
  | DeleteFile (path : FsPath)
deriving DecidableEq, Repr

/-- The keys of a snapshot in sorted order (`keys().sorted()`). -/
def sortedKeys (m : SnapMap) : List String :=
  List.insertionSort (fun a b => a ≤ b) (m.map Prod.fst)

/-- The copy-planning loop of `plan_file_movements`: for each source key, look
its blob up (`expect`, modelled as `none` on failure) and emit a copy exactly
when the key is absent from the destination map. -/
def planCopies (dst_dir : FsPath) (src_map dst_map : SnapMap) :
    List String → Option (List FileOp)
  | [] => some []
  | k :: ks =>
    match src_map.lookup k with
    | none => none
    | some blob =>
      match planCopies dst_dir src_map dst_map ks with
      | none => none
      | some rest =>
        match dst_map.lookup k with
        | some _ => some rest
        | none => some (FileOp.CopyFile blob.path (dst_dir ++ [blob.basename]) :: rest)

/-- The delete-planning loop of `plan_file_movements`: for each destination
key, look its blob up (`expect`) and emit a delete exactly when the key is
absent from the source map. -/
def planDeletes (src_map dst_map : SnapMap) : List String → Option (List FileOp)
  | [] => some []
  | k :: ks =>
    match dst_map.lookup k with
    | none => none
    | some blob =>
      match planDeletes src_map dst_map ks with
      | none => none
      | some rest =>
        match src_map.lookup k with
        | some _ => some rest
        | none => some (FileOp.DeleteFile blob.path :: rest)

/-- Rust `plan_file_movements`: copies over the sorted source keys, then deletes
over the sorted destination keys. -/
def plan_file_movements (dst_dir : FsPath) (src_map dst_map : SnapMap) :
    Option (List FileOp) :=
  match planCopies dst_dir src_map dst_map (sortedKeys src_map) with
  | none => none
  | some cs =>
    match planDeletes src_map dst_map (sortedKeys dst_map) with
    | none => none
    | some ds => some (cs ++ ds)

/-- Dispatch one `FileOp` to the fake filesystem. -/
def applyOp (fs : FakeFileSystem) (op : FileOp) : FakeFileSystem × Except IoError Unit :=
  match op with
  | FileOp.CopyFile src_path dst_path => fs.copyFile src_path dst_path
  | FileOp.DeleteFile path => fs.deleteFile path

/-- Rust `execute_file_movement_plan`: apply the operations in order; the `expect`
panic on a failed operation is modelled as stopping with that error. The
progress bar is a side channel and is omitted. -/
def execute_file_movement_plan (fs : FakeFileSystem) (file_plan : List FileOp) :
    FakeFileSystem × Except IoError Unit :=
  match file_plan with
  | [] => (fs, Except.ok ())
  | op :: rest =>
    let r := applyOp fs op
    match r.2 with
    | Except.ok _ => execute_file_movement_plan r.1 rest
    | Except.error e => (r.1, Except.error e)

/-- Rust `execute_rsync`: snapshot both directories, plan, execute. -/
def execute_rsync (h : String → String) (src_dir dst_dir : FsPath)
    (fs : FakeFileSystem) : FakeFileSystem × Except IoError Unit :=
  let s := get_struct_map h src_dir fs
  match s.2 with
  | Except.error e => (s.1, Except.error e)
  | Except.ok src_map =>
    let d := get_struct_map h dst_dir s.1
    match d.2 with
    | Except.error e => (d.1, Except.error e)
    | Except.ok dst_map =>
      match plan_file_movements dst_dir src_map dst_map with
      | none => (d.1, Except.error (IoError.mk IoErrorKind.invalidData "expected key not in map"))
      | some ops => execute_file_movement_plan d.1 ops

/-- The copy the planner emits for a source blob: from the path of the blob to
the destination root joined with the basename of the blob. -/
def copyOpFor (dst_dir : FsPath) (b : Blob) : FileOp :=
  FileOp.CopyFile b.path (dst_dir ++ [b.basename])

/-- The plan as the specification words it: iterating the source fingerprints
in sorted key order, a copy for exactly those absent from the destination,
then, iterating the destination fingerprints in sorted key order, a delete for
exactly those absent from the source. -/
def planFileMovementsSpec (dst_dir : FsPath) (src_map dst_map : SnapMap) :
    List FileOp :=
  ((sortedKeys src_map).filterMap fun k =>
      if (dst_map.lookup k).isSome then none
      else (src_map.lookup k).map (copyOpFor dst_dir)) ++
  ((sortedKeys dst_map).filterMap fun k =>
      if (src_map.lookup k).isSome then none
      else (dst_map.lookup k).map (fun b => FileOp.DeleteFile b.path))

section Helpers

lemma lookup_isSome_of_mem_keys {m : SnapMap} {k : String}
    (hk : k ∈ m.map Prod.fst) : (m.lookup k).isSome := by
  rcases List.mem_map.mp hk with ⟨p, hp, rfl⟩
  exact List.lookup_isSome_iff.mpr ⟨p, hp, by simp⟩

lemma mem_of_lookup_eq_some {m : SnapMap} {k : String} {b : Blob}
    (h : m.lookup k = some b) : (k, b) ∈ m := by
  rcases List.lookup_eq_some_iff.mp h with ⟨l₁, l₂, rfl, -⟩
  simp

lemma lookup_eq_some_of_mem_nodup {m : SnapMap} {k : String} {b : Blob}
    (hnd : (m.map Prod.fst).Nodup) (hmem : (k, b) ∈ m) : m.lookup k = some b := by
  induction m with
  | nil => cases hmem
  | cons p rest ih =>
    simp only [List.map_cons, List.nodup_cons] at hnd
    rcases List.mem_cons.mp hmem with h | h
    · subst h
      simp [List.lookup]
    · have hk : ¬ (k == p.1) = true := by
        intro he
        exact hnd.1 ((eq_of_beq he) ▸ (List.mem_map.mpr ⟨(k, b), h, rfl⟩))
      simp only [List.lookup]
      rw [Bool.eq_false_iff.mpr hk]
      exact ih hnd.2 h

lemma lookup_perm {m m' : SnapMap} (hnd : (m.map Prod.fst).Nodup)
    (hp : m.Perm m') (k : String) : m.lookup k = m'.lookup k := by
  cases hm : m.lookup k with
  | some b =>
    exact (lookup_eq_some_of_mem_nodup (((hp.map Prod.fst).nodup_iff).mp hnd)
      (hp.mem_iff.mp (mem_of_lookup_eq_some hm))).symm
  | none =>
    have hall := List.lookup_eq_none_iff.mp hm
    exact (List.lookup_eq_none_iff.mpr fun p hpmem => hall p (hp.mem_iff.mpr hpmem)).symm

instance : IsAntisymm String (fun a b => a ≤ b) := ⟨fun _ _ h h' => le_antisymm h h'⟩

instance : IsTotal String (fun a b => a ≤ b) := ⟨fun a b => le_total a b⟩

instance : IsTrans String (fun a b => a ≤ b) := ⟨fun _ _ _ h h' => le_trans h h'⟩

lemma sortedKeys_perm {m m' : SnapMap} (hp : m.Perm m') :
    sortedKeys m = sortedKeys m' := by
  exact List.eq_of_perm_of_sorted
    ((List.perm_insertionSort _ _).trans
      ((hp.map Prod.fst).trans (List.perm_insertionSort _ _).symm))
    (List.sorted_insertionSort _ _) (List.sorted_insertionSort _ _)

lemma planCopies_eq (dst_dir : FsPath) (src_map dst_map : SnapMap)
    (ks : List String) (hk : ∀ k ∈ ks, (src_map.lookup k).isSome) :
    planCopies dst_dir src_map dst_map ks =
      some (ks.filterMap fun k =>
        if (dst_map.lookup k).isSome then none
        else (src_map.lookup k).map (copyOpFor dst_dir)) := by
  induction ks with
  | nil => rfl
  | cons k ks ih =>
    rcases Option.isSome_iff_exists.mp (hk k (List.mem_cons_self k ks)) with ⟨b, hb⟩
    have ihh := ih fun k' hk' => hk k' (List.mem_cons_of_mem _ hk')
    cases hd : dst_map.lookup k with
    | some b' => simp [planCopies, hb, ihh, hd]
    | none => simp [planCopies, hb, ihh, hd, copyOpFor]

lemma planDeletes_eq (src_map dst_map : SnapMap)
    (ks : List String) (hk : ∀ k ∈ ks, (dst_map.lookup k).isSome) :
    planDeletes src_map dst_map ks =
      some (ks.filterMap fun k =>
        if (src_map.lookup k).isSome then none
        else (dst_map.lookup k).map (fun b => FileOp.DeleteFile b.path)) := by
  induction ks with
  | nil => rfl
  | cons k ks ih =>
    rcases Option.isSome_iff_exists.mp (hk k (List.mem_cons_self k ks)) with ⟨b, hb⟩
    have ihh := ih fun k' hk' => hk k' (List.mem_cons_of_mem _ hk')
    cases hs : src_map.lookup k with
    | some b' => simp [planDeletes, hb, ihh, hs]
    | none => simp [planDeletes, hb, ihh, hs]

lemma plan_eq_spec (dst_dir : FsPath) (src_map dst_map : SnapMap) :
    plan_file_movements dst_dir src_map dst_map =
      some (planFileMovementsSpec dst_dir src_map dst_map) := by
  have h1 : ∀ k ∈ sortedKeys src_map, (src_map.lookup k).isSome := fun k hk =>
    lookup_isSome_of_mem_keys ((List.perm_insertionSort _ _).mem_iff.mp hk)
  have h2 : ∀ k ∈ sortedKeys dst_map, (dst_map.lookup k).isSome := fun k hk =>
    lookup_isSome_of_mem_keys ((List.perm_insertionSort _ _).mem_iff.mp hk)
  simp [plan_file_movements, planCopies_eq _ _ _ _ h1, planDeletes_eq _ _ _ h2,
    planFileMovementsSpec]

end Helpers

/-- A demonstration blob used by witnesses. -/
def blobDemoA : Blob :=
  Blob.mk ["s", "a"] "a" ["s"] "ha" "a-ha-1" 1

/-- A second demonstration blob used by witnesses. -/
def blobDemoB : Blob :=
  Blob.mk ["s", "b"] "b" ["s"] "hb" "b-hb-1" 1

/-- C1: the planner first emits, over the source fingerprint keys in sorted
order, a copy (from the path of the source blob to the destination root joined
with the basename of the blob) for exactly the source keys absent from the
destination map, then, over the destination keys in sorted order, a delete of
the path of the destination blob for exactly the destination keys absent from
the source map; and on equal inputs (the same maps presented in any
association-list order) the produced plans are identical. -/
theorem plan_file_movements_spec_and_deterministic
    (dst_dir : FsPath) (src_map dst_map src' dst' : SnapMap)
    (hsrc : (src_map.map Prod.fst).Nodup) (hdst : (dst_map.map Prod.fst).Nodup)
    (hps : src_map.Perm src') (hpd : dst_map.Perm dst') :
    plan_file_movements dst_dir src_map dst_map =
        some (planFileMovementsSpec dst_dir src_map dst_map) ∧
      plan_file_movements dst_dir src' dst' =
        plan_file_movements dst_dir src_map dst_map := by
  refine ⟨plan_eq_spec _ _ _, ?_⟩
  rw [plan_eq_spec, plan_eq_spec]
  have e1 : ∀ k, src'.lookup k = src_map.lookup k := fun k => (lookup_perm hsrc hps k).symm
  have e2 : ∀ k, dst'.lookup k = dst_map.lookup k := fun k => (lookup_perm hdst hpd k).symm
  simp only [planFileMovementsSpec, sortedKeys_perm hps.symm, sortedKeys_perm hpd.symm, e1, e2]

/-- Witness for C1 at concrete two-entry maps given in swapped orders. -/
theorem plan_file_movements_spec_and_deterministic_witness :
    plan_file_movements ["d"] [("a-ha-1", blobDemoA), ("b-hb-1", blobDemoB)] [] =
        some (planFileMovementsSpec ["d"]
          [("a-ha-1", blobDemoA), ("b-hb-1", blobDemoB)] []) ∧
      plan_file_movements ["d"] [("b-hb-1", blobDemoB), ("a-ha-1", blobDemoA)] [] =
        plan_file_movements ["d"] [("a-ha-1", blobDemoA), ("b-hb-1", blobDemoB)] [] :=
  plan_file_movements_spec_and_deterministic ["d"]
    [("a-ha-1", blobDemoA), ("b-hb-1", blobDemoB)] []
    [("b-hb-1", blobDemoB), ("a-ha-1", blobDemoA)] []
    (by decide) (by decide)
    (List.Perm.swap _ _ _) (List.Perm.refl _)

/-- C8: the planner is total — for every destination root and every pair of
snapshot maps it returns a (possibly empty) operation list; in particular the
two guarded key lookups (`expect`) never fail. -/
theorem plan_file_movements_total (dst_dir : FsPath) (src_map dst_map : SnapMap) :
    ∃ ops, plan_file_movements dst_dir src_map dst_map = some ops :=
  ⟨planFileMovementsSpec dst_dir src_map dst_map, plan_eq_spec dst_dir src_map dst_map⟩

lemma append_mid_ne {x y : String} (p q : String) (hxy : x ≠ y) :
    p ++ "-" ++ x ++ "-" ++ q ≠ p ++ "-" ++ y ++ "-" ++ q := by
  intro he
  apply hxy
  apply String.ext
  have hd := congrArg String.data he
  simp only [String.data_append, List.append_assoc] at hd
  exact List.append_cancel_right (List.append_cancel_left (List.append_cancel_left hd))

/-- A one-file fake filesystem used by witnesses. -/
def fsDemo : FakeFileSystem := FakeFileSystem.mk [(["dir", "f"], "x")] []

/-- C4: whenever `Blob::new` succeeds, the fingerprint of the returned blob is
the basename, the content hash and the decimal size joined by a dash, where
the basename is derived from the path and the hash and size are exactly what
the capability returned; the fingerprint is thus a pure function of those
three components (blobs are immutable values in the model, so it is never
mutated after construction). -/
theorem blob_new_fingerprint (h : String → String) (p : FsPath)
    (fs : FakeFileSystem) (b : Blob) (hb : Blob.new h p fs = Except.ok b) :
    b.id = b.basename ++ "-" ++ b.hash ++ "-" ++ toString b.size ∧
      pathFileName p = some b.basename ∧
      FakeFileSystem.hashFile h fs p = Except.ok b.hash ∧
      FakeFileSystem.sizeFile fs p = Except.ok b.size ∧
      b.path = p := by
  unfold Blob.new at hb
  cases hfn : pathFileName p with
  | none => rw [hfn] at hb; exact absurd hb (by simp)
  | some bn =>
    rw [hfn] at hb
    cases hpp : pathParent p with
    | none => rw [hpp] at hb; exact absurd hb (by simp)
    | some d =>
      rw [hpp] at hb
      cases hh : FakeFileSystem.hashFile h fs p with
      | error e => rw [hh] at hb; exact absurd hb (by simp)
      | ok hsh =>
        rw [hh] at hb
        cases hsz : FakeFileSystem.sizeFile fs p with
        | error e => rw [hsz] at hb; exact absurd hb (by simp)
        | ok sz =>
          rw [hsz] at hb
          simp only [Except.ok.injEq] at hb
          subst hb
          exact ⟨rfl, by simpa using hfn, by simpa using hh, by simpa using hsz, rfl⟩

/-- Witness for C4 on a concrete file. -/
theorem blob_new_fingerprint_witness :
    (Blob.mk ["dir", "f"] "f" ["dir"] "x" "f-x-1" 1).id =
        "f" ++ "-" ++ "x" ++ "-" ++ toString (1 : Nat) ∧
      pathFileName ["dir", "f"] = some "f" ∧
      FakeFileSystem.hashFile (fun s => s) fsDemo ["dir", "f"] = Except.ok "x" ∧
      FakeFileSystem.sizeFile fsDemo ["dir", "f"] = Except.ok 1 ∧
      (["dir", "f"] : FsPath) = ["dir", "f"] :=
  blob_new_fingerprint (fun s => s) ["dir", "f"] fsDemo
    (Blob.mk ["dir", "f"] "f" ["dir"] "x" "f-x-1" 1) (by rfl)

/-- C7: on a path from which no basename can be derived (a root), `Blob::new`
fails with the invalid-data basename error (the `PathMalformed` of the
specification), and the result is the same for every digest function and
every filesystem state — the capability is never consulted. -/
theorem blob_new_malformed (p : FsPath) (hp : pathFileName p = none)
    (h h' : String → String) (fs fs' : FakeFileSystem) :
    Blob.new h p fs =
        Except.error (IoError.mk IoErrorKind.invalidData "basename operation failed") ∧
      Blob.new h p fs = Blob.new h' p fs' := by
  unfold Blob.new
  rw [hp]
  exact ⟨rfl, rfl⟩

/-- Witness for C7 at the root path. -/
theorem blob_new_malformed_witness :
    Blob.new (fun s => s) [] FakeFileSystem.new =
        Except.error (IoError.mk IoErrorKind.invalidData "basename operation failed") ∧
      Blob.new (fun s => s) [] FakeFileSystem.new =
        Blob.new (fun s => s ++ s) [] fsDemo :=
  blob_new_malformed [] (by rfl) (fun s => s) (fun s => s ++ s)
    FakeFileSystem.new fsDemo

lemma paths_to_blobs_error {h : String → String} {ps : List FsPath}
    {fs : FakeFileSystem} (hex : ∃ p ∈ ps, ∃ e, Blob.new h p fs = Except.error e) :
    ∃ e, paths_to_blobs h ps fs = Except.error e := by
  induction ps with
  | nil => rcases hex with ⟨p, hp, -⟩; cases hp
  | cons q qs ih =>
    cases hq : Blob.new h q fs with
    | error e' => exact ⟨e', by simp [paths_to_blobs, hq]⟩
    | ok b =>
      rcases hex with ⟨p, hp, e, he⟩
      rcases List.mem_cons.mp hp with rfl | hmem
      · rw [hq] at he; cases he
      · rcases ih ⟨p, hmem, e, he⟩ with ⟨e'', he''⟩
        exact ⟨e'', by simp [paths_to_blobs, hq, he'']⟩

/-- C6: if `Blob` construction fails for any file listed under the root, the
whole snapshot build fails — `get_struct_map` yields an error and no partial
fingerprint map. -/
theorem get_struct_map_fails_whole (h : String → String) (root : FsPath)
    (fs : FakeFileSystem)
    (hex : ∃ p ∈ (fs.listFiles root).2, ∃ e,
      Blob.new h p (fs.listFiles root).1 = Except.error e) :
    ∃ e, (get_struct_map h root fs).2 = Except.error e := by
  rcases paths_to_blobs_error hex with ⟨e, he⟩
  exact ⟨e, by simp [get_struct_map, he]⟩

/-- Witness for C6: a listed root path has no basename, so its blob fails and
the snapshot build fails as a whole. -/
theorem get_struct_map_fails_whole_witness :
    ∃ e, (get_struct_map (fun s => s) []
      (FakeFileSystem.mk [([], "x")] [])).2 = Except.error e :=
  get_struct_map_fails_whole (fun s => s) [] (FakeFileSystem.mk [([], "x")] [])
    ⟨[], by simp [FakeFileSystem.listFiles, pathStartsWith],
      IoError.mk IoErrorKind.invalidData "basename operation failed", by rfl⟩

lemma applyOp_error_state {fs fs' : FakeFileSystem} {op : FileOp} {e : IoError}
    (h : applyOp fs op = (fs', Except.error e)) : fs' = fs := by
  cases op with
  | CopyFile s d =>
    simp only [applyOp] at h
    unfold FakeFileSystem.copyFile at h
    cases hl : fs.files.lookup s with
    | some c => rw [hl] at h; simp at h
    | none => rw [hl] at h; cases h; rfl
  | DeleteFile p =>
    simp only [applyOp] at h
    unfold FakeFileSystem.deleteFile at h
    cases hl : fs.files.lookup p with
    | some c => rw [hl] at h; simp at h
    | none => rw [hl] at h; cases h; rfl

lemma execute_append_ok {fs fs1 : FakeFileSystem} {xs : List FileOp}
    (hx : execute_file_movement_plan fs xs = (fs1, Except.ok ())) (ys : List FileOp) :
    execute_file_movement_plan fs (xs ++ ys) = execute_file_movement_plan fs1 ys := by
  induction xs generalizing fs with
  | nil =>
    simp only [execute_file_movement_plan] at hx
    cases hx
    rfl
  | cons op rest ih =>
    simp only [execute_file_movement_plan] at hx
    cases hr : (applyOp fs op).2 with
    | ok u =>
      simp only [hr] at hx
      simp only [List.cons_append, execute_file_movement_plan, hr]
      exact ih hx
    | error e => simp [hr] at hx

/-- C5: if every operation of the prefix succeeds and the next operation
fails, executing the whole plan stops at that operation and surfaces its
error; the operations after it are never applied (the result does not depend
on them) and the filesystem retains exactly the effects of the completed
prefix — no rollback. -/
theorem execute_plan_stops_at_first_failure
    (fs fs1 fs2 : FakeFileSystem) (pre post : List FileOp) (op : FileOp)
    (e : IoError)
    (hpre : execute_file_movement_plan fs pre = (fs1, Except.ok ()))
    (hop : applyOp fs1 op = (fs2, Except.error e)) :
    execute_file_movement_plan fs (pre ++ op :: post) = (fs2, Except.error e) ∧
      fs2 = fs1 := by
  refine ⟨?_, applyOp_error_state hop⟩
  rw [execute_append_ok hpre]
  unfold execute_file_movement_plan
  rw [hop]

/-- Witness for C5: a plan whose second delete fails on an already-deleted
path; the trailing copy is never applied. -/
theorem execute_plan_stops_at_first_failure_witness :
    execute_file_movement_plan (FakeFileSystem.mk [(["a"], "x")] [])
        ([FileOp.DeleteFile ["a"]] ++
          FileOp.DeleteFile ["a"] :: [FileOp.CopyFile ["a"] ["b"]]) =
        (FakeFileSystem.mk [] ["delete: `a`"], Except.error fileNotFound) ∧
      FakeFileSystem.mk [] ["delete: `a`"] = FakeFileSystem.mk [] ["delete: `a`"] :=
  execute_plan_stops_at_first_failure (FakeFileSystem.mk [(["a"], "x")] [])
    (FakeFileSystem.mk [] ["delete: `a`"]) (FakeFileSystem.mk [] ["delete: `a`"])
    [FileOp.DeleteFile ["a"]] [FileOp.CopyFile ["a"] ["b"]]
    (FileOp.DeleteFile ["a"]) fileNotFound (by rfl) (by rfl)

/-- C10: each mutating fake-filesystem call on an absent path returns the
not-found error and is atomic on error — the state (files and operation log)
is returned exactly unchanged. -/
theorem fake_fs_not_found_atomic (fs : FakeFileSystem) (p q : FsPath)
    (habs : fs.files.lookup p = none) :
    fs.moveFile p q = (fs, Except.error fileNotFound) ∧
      fs.copyFile p q = (fs, Except.error fileNotFound) ∧
      fs.deleteFile p = (fs, Except.error fileNotFound) := by
  unfold FakeFileSystem.moveFile FakeFileSystem.copyFile FakeFileSystem.deleteFile
  rw [habs]
  exact ⟨rfl, rfl, rfl⟩

/-- Witness for C10 on a concrete absent path. -/
theorem fake_fs_not_found_atomic_witness :
    fsDemo.moveFile ["dir", "g"] ["dir", "h"] = (fsDemo, Except.error fileNotFound) ∧
      fsDemo.copyFile ["dir", "g"] ["dir", "h"] = (fsDemo, Except.error fileNotFound) ∧
      fsDemo.deleteFile ["dir", "g"] = (fsDemo, Except.error fileNotFound) :=
  fake_fs_not_found_atomic fsDemo ["dir", "g"] ["dir", "h"] (by rfl)

/-- The single-quote character, written by code point. -/
def squote : String := String.singleton (Char.ofNat 39)

/-- Counterexample to C9 as stated: on a successful move the fake filesystem
does not append a log line with the arguments wrapped in single quotes — the
actual line wraps them in backticks. -/
theorem fake_fs_log_not_single_quoted :
    ((FakeFileSystem.mk [(["a"], "x")] []).moveFile ["a"] ["b"]).1.operations ≠
        ["move: " ++ squote ++ "a" ++ squote ++ " -> " ++ squote ++ "b" ++ squote] ∧
      ((FakeFileSystem.mk [(["a"], "x")] []).moveFile ["a"] ["b"]).1.operations =
        ["move: `a` -> `b`"] := by
  exact ⟨by decide, rfl⟩

/-- C9 amended: every successful mutating call on the fake filesystem appends
exactly one log line of the form given with the argument paths wrapped in
BACKTICKS — the operation name, a colon, and each argument in backticks with
an arrow between two arguments. -/
theorem fake_fs_log_backtick_format (fs : FakeFileSystem) (p q : FsPath)
    (content : String) (hp : fs.files.lookup p = some content) :
    (fs.moveFile p q).1.operations =
        fs.operations ++
          ["move: `" ++ pathDisplay p ++ "` -> `" ++ pathDisplay q ++ "`"] ∧
      (fs.copyFile p q).1.operations =
        fs.operations ++
          ["copy: `" ++ pathDisplay p ++ "` -> `" ++ pathDisplay q ++ "`"] ∧
      (fs.deleteFile p).1.operations =
        fs.operations ++ ["delete: `" ++ pathDisplay p ++ "`"] := by
  unfold FakeFileSystem.moveFile FakeFileSystem.copyFile FakeFileSystem.deleteFile
  rw [hp]
  exact ⟨rfl, rfl, rfl⟩

/-- Witness for the amended C9 on a concrete file. -/
theorem fake_fs_log_backtick_format_witness :
    ((FakeFileSystem.mk [(["a"], "x")] []).moveFile ["a"] ["b"]).1.operations =
        [] ++ ["move: `" ++ pathDisplay ["a"] ++ "` -> `" ++ pathDisplay ["b"] ++ "`"] ∧
      ((FakeFileSystem.mk [(["a"], "x")] []).copyFile ["a"] ["b"]).1.operations =
        [] ++ ["copy: `" ++ pathDisplay ["a"] ++ "` -> `" ++ pathDisplay ["b"] ++ "`"] ∧
      ((FakeFileSystem.mk [(["a"], "x")] []).deleteFile ["a"]).1.operations =
        [] ++ ["delete: `" ++ pathDisplay ["a"] ++ "`"] :=
  fake_fs_log_backtick_format (FakeFileSystem.mk [(["a"], "x")] []) ["a"] ["b"]
    "x" (by rfl)

lemma mem_sortedKeys_isSome {m : SnapMap} {k : String} (hk : k ∈ sortedKeys m) :
    (m.lookup k).isSome :=
  lookup_isSome_of_mem_keys ((List.perm_insertionSort _ _).mem_iff.mp hk)

/-- C3: for a fingerprint key present in both snapshot maps (with blob paths
pairwise distinct on each side, as in any real snapshot), the plan contains no
copy from the path of the blob of that key on the source side and no delete of
the path of the blob of that key on the destination side; and when the two
maps are equal the plan is empty and executing it returns the filesystem
unchanged. -/
theorem plan_no_op_for_shared_key
    (d : FsPath) (src dst : SnapMap) (k : String) (bs bd : Blob)
    (ops : List FileOp)
    (hks : src.lookup k = some bs) (hkd : dst.lookup k = some bd)
    (hsp : (src.map (fun e => e.2.path)).Nodup)
    (hdp : (dst.map (fun e => e.2.path)).Nodup)
    (hplan : plan_file_movements d src dst = some ops) :
    ((∀ q, FileOp.CopyFile bs.path q ∉ ops) ∧ FileOp.DeleteFile bd.path ∉ ops) ∧
      plan_file_movements d src src = some [] ∧
      ∀ fs, execute_file_movement_plan fs [] = (fs, Except.ok ()) := by
  have hops : ops = planFileMovementsSpec d src dst := by
    have hps := plan_eq_spec d src dst
    rw [hplan] at hps
    exact Option.some.inj hps
  subst hops
  refine ⟨⟨?_, ?_⟩, ?_, fun fs => rfl⟩
  · intro q hmem
    unfold planFileMovementsSpec at hmem
    rcases List.mem_append.mp hmem with hc | hdm
    · rcases List.mem_filterMap.mp hc with ⟨k', hk', he⟩
      by_cases hds : (dst.lookup k').isSome
      · rw [if_pos hds] at he; cases he
      · rw [if_neg hds] at he
        rcases Option.map_eq_some'.mp he with ⟨b', hb', heq⟩
        have hpath : b'.path = bs.path := by
          unfold copyOpFor at heq
          exact (FileOp.CopyFile.inj heq).1
        have hkne : k' ≠ k := by
          intro he'
          subst he'
          rw [hkd] at hds
          exact hds rfl
        have hent := List.inj_on_of_nodup_map hsp (mem_of_lookup_eq_some hb')
          (mem_of_lookup_eq_some hks) hpath
        exact hkne (congrArg Prod.fst hent)
    · rcases List.mem_filterMap.mp hdm with ⟨k', hk', he⟩
      by_cases hss : (src.lookup k').isSome
      · rw [if_pos hss] at he; cases he
      · rw [if_neg hss] at he
        rcases Option.map_eq_some'.mp he with ⟨b', hb', heq⟩
        cases heq
  · intro hmem
    unfold planFileMovementsSpec at hmem
    rcases List.mem_append.mp hmem with hc | hdm
    · rcases List.mem_filterMap.mp hc with ⟨k', hk', he⟩
      by_cases hds : (dst.lookup k').isSome
      · rw [if_pos hds] at he; cases he
      · rw [if_neg hds] at he
        rcases Option.map_eq_some'.mp he with ⟨b', hb', heq⟩
        unfold copyOpFor at heq
        cases heq
    · rcases List.mem_filterMap.mp hdm with ⟨k', hk', he⟩
      by_cases hss : (src.lookup k').isSome
      · rw [if_pos hss] at he; cases he
      · rw [if_neg hss] at he
        rcases Option.map_eq_some'.mp he with ⟨b', hb', heq⟩
        have hpath : b'.path = bd.path := FileOp.DeleteFile.inj heq
        have hkne : k' ≠ k := by
          intro he'
          subst he'
          rw [hks] at hss
          exact hss rfl
        have hent := List.inj_on_of_nodup_map hdp (mem_of_lookup_eq_some hb')
          (mem_of_lookup_eq_some hkd) hpath
        exact hkne (congrArg Prod.fst hent)
  · rw [plan_eq_spec]
    have hnil : planFileMovementsSpec d src src = [] := by
      unfold planFileMovementsSpec
      rw [List.append_eq_nil.mpr]
      refine ⟨?_, ?_⟩ <;>
        exact List.filterMap_eq_nil_iff.mpr fun a ha => by
          rw [if_pos (mem_sortedKeys_isSome ha)]
    rw [hnil]

/-- Witness for C3: singleton maps sharing their only key. -/
theorem plan_no_op_for_shared_key_witness :
    ((∀ q, FileOp.CopyFile blobDemoA.path q ∉ ([] : List FileOp)) ∧
        FileOp.DeleteFile blobDemoB.path ∉ ([] : List FileOp)) ∧
      plan_file_movements ["d"] [("k", blobDemoA)] [("k", blobDemoA)] = some [] ∧
      ∀ fs, execute_file_movement_plan fs [] = (fs, Except.ok ()) :=
  plan_no_op_for_shared_key ["d"] [("k", blobDemoA)] [("k", blobDemoB)] "k"
    blobDemoA blobDemoB [] (by rfl) (by rfl) (by decide) (by decide) (by decide)

/-- The C2 failing input: the source and destination each hold a file named
`a`, with different content. -/
def fsC2 : FakeFileSystem :=
  FakeFileSystem.mk [(["dir", "a"], "Y"), (["other", "a"], "X")] []

/-- The source blob of the C2 failing input. -/
def bsC2 (h : String → String) : Blob :=
  Blob.mk ["dir", "a"] "a" ["dir"] (h ("Y")) ("a" ++ "-" ++ h ("Y") ++ "-" ++ "1") 1

/-- The destination blob of the C2 failing input. -/
def bdC2 (h : String → String) : Blob :=
  Blob.mk ["other", "a"] "a" ["other"] (h ("X")) ("a" ++ "-" ++ h ("X") ++ "-" ++ "1") 1

/-- The filesystem state of the C2 failing input after both snapshots. -/
def fs2C2 : FakeFileSystem :=
  FakeFileSystem.mk fsC2.files ["list: `dir`", "list: `other`"]

/-- The final filesystem state of the C2 failing input: the destination
directory is empty. -/
def finalC2 : FakeFileSystem :=
  FakeFileSystem.mk [(["dir", "a"], "Y")]
    ["list: `dir`", "list: `other`", "copy: `dir/a` -> `other/a`",
     "delete: `other/a`"]

/-- C2 fails on the code: for every digest that separates the two contents
(SHA-256 does), running the full pipeline on a source `dir/a` with content
`Y` and a destination `other/a` with content `X` plans the copy BEFORE the
delete; the delete of the superseded destination path then removes the file
the copy just produced. The run succeeds, the destination directory ends
empty, and a fresh destination snapshot contains none of the source
fingerprints even though the source snapshot is nonempty — completeness and
deletion soundness are both violated. -/
theorem execute_rsync_deletes_fresh_copy (h : String → String)
    (hne : h ("X") ≠ h ("Y")) :
    execute_rsync h ["dir"] ["other"] fsC2 = (finalC2, Except.ok ()) ∧
      (get_struct_map h ["dir"] finalC2).2 =
        Except.ok [("a" ++ "-" ++ h ("Y") ++ "-" ++ "1", bsC2 h)] ∧
      (get_struct_map h ["other"] finalC2).2 = Except.ok [] := by
  have hidne : ("a" ++ "-" ++ h ("Y") ++ "-" ++ "1") ≠
      ("a" ++ "-" ++ h ("X") ++ "-" ++ "1") :=
    append_mid_ne "a" "1" (fun e => hne e.symm)
  have hb1 : (("a-" ++ h ("Y") ++ "-" ++ "1") ==
      ("a-" ++ h ("X") ++ "-" ++ "1")) = false :=
    beq_eq_false_iff_ne.mpr hidne
  have hb2 : (("a-" ++ h ("X") ++ "-" ++ "1") ==
      ("a-" ++ h ("Y") ++ "-" ++ "1")) = false :=
    beq_eq_false_iff_ne.mpr hidne.symm
  have hplan : plan_file_movements ["other"]
      [("a" ++ "-" ++ h ("Y") ++ "-" ++ "1", bsC2 h)]
      [("a" ++ "-" ++ h ("X") ++ "-" ++ "1", bdC2 h)] =
      some [FileOp.CopyFile ["dir", "a"] ["other", "a"],
        FileOp.DeleteFile ["other", "a"]] := by
    simp [plan_file_movements, sortedKeys, List.insertionSort, planCopies,
      planDeletes, List.lookup_cons, hb1, hb2, bsC2, bdC2]
  have h1 : execute_rsync h ["dir"] ["other"] fsC2 =
      (match plan_file_movements ["other"]
          [("a" ++ "-" ++ h ("Y") ++ "-" ++ "1", bsC2 h)]
          [("a" ++ "-" ++ h ("X") ++ "-" ++ "1", bdC2 h)] with
       | none => (fs2C2,
           Except.error (IoError.mk IoErrorKind.invalidData "expected key not in map"))
       | some ops => execute_file_movement_plan fs2C2 ops) := rfl
  rw [hplan] at h1
  exact ⟨h1, rfl, rfl⟩

/-- Witness for the C2 failure with an injective-on-these-contents digest
standing in for SHA-256. -/
theorem execute_rsync_deletes_fresh_copy_witness :
    execute_rsync (fun s => s) ["dir"] ["other"] fsC2 = (finalC2, Except.ok ()) ∧
      (get_struct_map (fun s => s) ["dir"] finalC2).2 =
        Except.ok [("a" ++ "-" ++ (fun s => s) ("Y") ++ "-" ++ "1",
          bsC2 (fun s => s))] ∧
      (get_struct_map (fun s => s) ["other"] finalC2).2 = Except.ok [] :=
  execute_rsync_deletes_fresh_copy (fun s => s) (by decide)
